import Mathlib

/-!
Shallow embedding of the presenotion content pipeline.

The definitions below are translated from the TypeScript sources of the
repository: the block data model (src/components/SlideViewer/NotionSlideViewer.tsx,
types section), the slide generator (src/lib/slideGenerator.ts), the font
scaler (lib/fontScaler.ts), the keyboard navigation hook (lib/keyboardHandler.ts)
and the DOM parser (src/pages/content/parser.ts).

Modelling conventions:
* JavaScript numbers that only ever hold integers are embedded as Nat or Int;
  the font scaler, which divides, is embedded over the rationals.
* JavaScript strings used as character buffers are embedded as List Char.
* Generated UUIDs (the id fields of slides and decks) and Date timestamps are
  nondeterministic and irrelevant to every claim; those fields are omitted
  from the embedded Slide and SlideDeck structures, with the remaining fields
  kept verbatim.
-/

namespace Presenotion

/-- Block content type enum, from NotionBlockType in the data model. -/
inductive NotionBlockType where
  | heading
  | paragraph
  | bullet_list
  | numbered_list
  | image
  | code
  | quote
  | divider
  | unsupported
deriving DecidableEq, Repr

/-- Inline formatting type tags, from the TextFormatting interface. -/
inductive FormatType where
  | bold
  | italic
  | underline
  | strikethrough
  | code
deriving DecidableEq, Repr

/-- Inline formatting span, from the TextFormatting interface.
The field named end in the source is embedded as endOffset because end is a
keyword in Lean. -/
structure TextFormatting where
  type : FormatType
  start : Nat
  endOffset : Nat
deriving DecidableEq, Repr

/-- List style, from the listType field of NotionBlock. -/
inductive ListType where
  | bullet
  | numbered
deriving DecidableEq, Repr

/-- A content block extracted from the Notion DOM, from the NotionBlock
interface. Optional TypeScript fields are embedded as Option with default
none; the recursive children field is omitted because no embedded operation
reads it. -/
structure NotionBlock where
  id : String
  type : NotionBlockType
  content : String
  level : Option Nat := none
  formatting : List TextFormatting := []
  imageUrl : Option String := none
  imageAlt : Option String := none
  listItems : List String := []
  listType : Option ListType := none
  codeLanguage : Option String := none
deriving DecidableEq, Repr

/-- Per-slide density metadata, from the SlideMetadata interface. -/
structure SlideMetadata where
  hasImages : Bool
  hasCode : Bool
  hasLists : Bool
  blockCount : Nat
  wordCount : Nat
deriving DecidableEq, Repr

/-- A presentation slide, from the Slide interface. The generated UUID id
field is omitted (nondeterministic, unread by any claim). -/
structure Slide where
  index : Nat
  title : String
  blocks : List NotionBlock
  estimatedHeight : Nat
  fontSize : Int
  metadata : SlideMetadata
deriving DecidableEq, Repr

/-- A parsing error record, from the ParsingError interface. -/
structure ParsingError where
  blockId : Option String := none
  message : String
  blockType : Option NotionBlockType := none
deriving DecidableEq, Repr

/-- A complete deck, from the SlideDeck interface. The generated UUID id and
the createdAt timestamp are omitted (nondeterministic, unread by any claim). -/
structure SlideDeck where
  sourcePageUrl : String
  slides : List Slide
  totalSlides : Nat
  parsingErrors : List ParsingError
deriving DecidableEq, Repr

/-! Font scaler (lib/fontScaler.ts) -/

/-- BASE_FONT_SIZE constant from fontScaler.ts. -/
def BASE_FONT_SIZE : Int := 24

/-- MIN_FONT_SIZE constant from fontScaler.ts. -/
def MIN_FONT_SIZE : Int := 12

/-- getBaseFontSize from fontScaler.ts. -/
def getBaseFontSize : Int := BASE_FONT_SIZE

/-- JavaScript Math.round: round half toward positive infinity. -/
def jsRound (x : ℚ) : Int := ⌊x + 1 / 2⌋

/-- calculateFontSize from fontScaler.ts, embedded over the rationals. -/
def calculateFontSize (contentHeight viewportHeight : ℚ) : Int :=
  if contentHeight ≤ 0 ∨ viewportHeight ≤ 0 then
    BASE_FONT_SIZE
  else
    max MIN_FONT_SIZE (jsRound ((BASE_FONT_SIZE : ℚ) * min 1 (viewportHeight / contentHeight)))

/-! Slide generator (src/lib/slideGenerator.ts) -/

/-- The filtered heading-level list built inside detectSlideHeadingLevel:
filter to heading blocks, map to their level, keep defined levels strictly
greater than 1. -/
def headingLevels (blocks : List NotionBlock) : List Nat :=
  (((blocks.filter fun b => b.type = NotionBlockType.heading).filterMap
      fun b => b.level).filter fun l => 1 < l)

/-- detectSlideHeadingLevel from slideGenerator.ts: the smallest heading level
strictly greater than 1, or none when no such heading exists. Math.min over a
nonempty list is embedded as a fold of min over the remaining elements. -/
def detectSlideHeadingLevel (blocks : List NotionBlock) : Option Nat :=
  match headingLevels blocks with
  | [] => none
  | l :: ls => some (ls.foldl min l)

/-- Word counting helper: the number of nonempty pieces of a whitespace
split, computed as the number of maximal non-whitespace runs. The flag says
whether the scan currently stands inside a word. -/
def countWordsFrom (inWord : Bool) : List Char → Nat
  | [] => 0
  | c :: cs =>
    if c.isWhitespace then countWordsFrom false cs
    else (if inWord then 0 else 1) + countWordsFrom true cs

/-- Number of words of a block text in calculateMetadata: split on whitespace
and count the nonempty pieces. -/
def countWords (s : String) : Nat :=
  countWordsFrom false s.toList

/-- calculateMetadata from slideGenerator.ts. -/
def calculateMetadata (blocks : List NotionBlock) : SlideMetadata :=
  { hasImages := blocks.any fun b => b.type = NotionBlockType.image
    hasCode := blocks.any fun b => b.type = NotionBlockType.code
    hasLists := blocks.any fun b =>
      b.type = NotionBlockType.bullet_list ∨ b.type = NotionBlockType.numbered_list
    blockCount := blocks.length
    wordCount := blocks.foldl (fun count b => count + countWords b.content) 0 }

/-- createSlide from slideGenerator.ts. -/
def createSlide (index : Nat) (title : String) (blocks : List NotionBlock) : Slide :=
  { index := index
    title := title
    blocks := blocks
    estimatedHeight := 0
    fontSize := getBaseFontSize
    metadata := calculateMetadata blocks }

/-- createEmptySlide from slideGenerator.ts: the fallback slide for pages with
no usable content. -/
def createEmptySlide : Slide :=
  { index := 0
    title := "No Content"
    blocks := [{ id := ""
                 type := NotionBlockType.paragraph
                 content := "This page has no content to display as slides." }]
    estimatedHeight := 0
    fontSize := getBaseFontSize
    metadata := { hasImages := false
                  hasCode := false
                  hasLists := false
                  blockCount := 1
                  wordCount := 8 } }

/-- JavaScript truthiness of the title fallback in the generator:
block.content or the default placeholder when content is the empty string. -/
def titleOrDefault (content : String) : String :=
  if content = "" then "Untitled Slide" else content

/-- The mutable loop state of generateSlides: accumulated slides, the block
buffer of the slide being built, the pending title, and whether a boundary
heading has been seen. -/
structure GenState where
  slides : List Slide
  currentSlideBlocks : List NotionBlock
  currentTitle : String
  hasSeenHeading : Bool
deriving DecidableEq, Repr

/-- Initial loop state of generateSlides. -/
def initGenState : GenState :=
  { slides := []
    currentSlideBlocks := []
    currentTitle := "Untitled Slide"
    hasSeenHeading := false }

/-- One iteration of the forEach loop of generateSlides at boundary level
boundary. -/
def genStep (boundary : Nat) (st : GenState) (b : NotionBlock) : GenState :=
  if b.type = NotionBlockType.heading ∧ b.level = some boundary then
    { slides :=
        if st.hasSeenHeading then
          st.slides ++ [createSlide st.slides.length st.currentTitle st.currentSlideBlocks]
        else
          st.slides
      currentSlideBlocks := []
      currentTitle := titleOrDefault b.content
      hasSeenHeading := true }
  else
    { st with currentSlideBlocks := st.currentSlideBlocks ++ [b] }

/-- The post-loop flush of generateSlides: append the final slide when at
least one boundary heading was seen. -/
def finishSlides (st : GenState) : List Slide :=
  if st.hasSeenHeading then
    st.slides ++ [createSlide st.slides.length st.currentTitle st.currentSlideBlocks]
  else
    st.slides

/-- generateSlides from slideGenerator.ts. -/
def generateSlides (blocks : List NotionBlock) : List Slide :=
  if blocks.length = 0 then
    [createEmptySlide]
  else
    match detectSlideHeadingLevel blocks with
    | none => [createEmptySlide]
    | some boundary =>
      let st := blocks.foldl (genStep boundary) initGenState
      let slides := finishSlides st
      if slides.length = 0 then [createEmptySlide] else slides

/-- generateSlideDeck from slideGenerator.ts. -/
def generateSlideDeck (blocks : List NotionBlock) (sourcePageUrl : String) : SlideDeck :=
  let slides := generateSlides blocks
  { sourcePageUrl := sourcePageUrl
    slides := slides
    totalSlides := slides.length
    parsingErrors := [] }

/-! Navigation (lib/keyboardHandler.ts, useSlideNavigation)

The hook closes over currentSlide and totalSlides and reports the next index
through onNavigate; each operation is embedded as a function from the current
index to the resulting index. Indices are Int because goToSlide accepts an
arbitrary integer argument. -/

/-- goToNext: advance unless already at the last slide. -/
def goToNext (totalSlides currentSlide : Int) : Int :=
  if currentSlide < totalSlides - 1 then currentSlide + 1 else currentSlide

/-- goToPrevious: go back unless already at slide 0. -/
def goToPrevious (currentSlide : Int) : Int :=
  if 0 < currentSlide then currentSlide - 1 else currentSlide

/-- goToSlide: clamp the requested index into the valid range. -/
def goToSlide (totalSlides index : Int) : Int :=
  max 0 (min (totalSlides - 1) index)

/-- goToFirst. -/
def goToFirst : Int := 0

/-- goToLast. -/
def goToLast (totalSlides : Int) : Int := totalSlides - 1

/-- One navigation operation of the hook. -/
inductive NavOp where
  | next
  | previous
  | slide (index : Int)
  | first
  | last
deriving DecidableEq, Repr

/-- Apply one navigation operation to the current index. -/
def applyNavOp (totalSlides currentSlide : Int) : NavOp → Int
  | NavOp.next => goToNext totalSlides currentSlide
  | NavOp.previous => goToPrevious currentSlide
  | NavOp.slide index => goToSlide totalSlides index
  | NavOp.first => goToFirst
  | NavOp.last => goToLast totalSlides

/-- Run a sequence of navigation operations from a starting index. -/
def runNavOps (totalSlides currentSlide : Int) (ops : List NavOp) : Int :=
  ops.foldl (applyNavOp totalSlides) currentSlide

/-! Keyboard handler (lib/keyboardHandler.ts, handleKeyPress)

The handler keeps a digit buffer (a JavaScript string, embedded as List Char)
and at most one pending 2000 ms timeout. A fired or cleared timeout is
embedded as none; the single-slot Option field reflects that the source never
holds more than one pending timer. The closed flag records that Escape called
the close callback. -/

/-- State closed over by the keydown listener, plus the navigation index the
nav callbacks rewrite. -/
structure KeyboardState where
  numberBuffer : List Char
  numberTimeout : Option Nat
  currentSlide : Int
  closed : Bool
deriving DecidableEq, Repr

/-- JavaScript parseInt(s, 10) restricted to the nonempty all-digit buffers
the handler constructs. -/
def parseIntDigits (buffer : List Char) : Nat :=
  buffer.foldl (fun n c => 10 * n + (c.toNat - 48)) 0

/-- The DIGIT_BUFFER_TIMEOUT delay of the handler, in milliseconds. -/
def DIGIT_BUFFER_TIMEOUT_MS : Nat := 2000

/-- handleKeyPress from keyboardHandler.ts: the switch over e.key for events
whose target is not an editable control (events on editable targets return
before the switch and leave the state unchanged, so they are identity in this
embedding and are not modelled as separate events). -/
def handleKeyPress (totalSlides : Int) (st : KeyboardState) (key : String) : KeyboardState :=
  if key = "ArrowRight" ∨ key = "ArrowDown" ∨ key = " " then
    { st with currentSlide := goToNext totalSlides st.currentSlide }
  else if key = "ArrowLeft" ∨ key = "ArrowUp" then
    { st with currentSlide := goToPrevious st.currentSlide }
  else if key = "Home" then
    { st with currentSlide := goToFirst }
  else if key = "End" then
    { st with currentSlide := goToLast totalSlides }
  else if key = "Escape" then
    { st with closed := true }
  else if key = "Enter" then
    if 0 < st.numberBuffer.length then
      let slideNumber := parseIntDigits st.numberBuffer
      let st1 :=
        if 0 < slideNumber then
          { st with currentSlide := goToSlide totalSlides ((slideNumber : Int) - 1) }
        else
          st
      { st1 with numberBuffer := [], numberTimeout := none }
    else
      st
  else
    match key.toList with
    | [c] =>
      if c.isDigit then
        { st with
            numberBuffer := st.numberBuffer ++ [c]
            numberTimeout := some DIGIT_BUFFER_TIMEOUT_MS }
      else
        st
    | _ => st

/-- The pending-timeout callback firing: it clears the buffer; the spent
handle is embedded as none. Without a pending timeout nothing can fire. -/
def fireTimer (st : KeyboardState) : KeyboardState :=
  match st.numberTimeout with
  | some _ => { st with numberBuffer := [], numberTimeout := none }
  | none => st

/-- A discrete event seen by the handler: a keydown or the idle timer firing. -/
inductive KeyEvent where
  | key (k : String)
  | timerFire
deriving DecidableEq, Repr

/-- Process one event. -/
def stepEvent (totalSlides : Int) (st : KeyboardState) : KeyEvent → KeyboardState
  | KeyEvent.key k => handleKeyPress totalSlides st k
  | KeyEvent.timerFire => fireTimer st

/-- Process a sequence of events. -/
def runEvents (totalSlides : Int) (st : KeyboardState) (evs : List KeyEvent) : KeyboardState :=
  evs.foldl (stepEvent totalSlides) st

/-- The keydown events of a digit sequence. -/
def digitEvents (ds : List Char) : List KeyEvent :=
  ds.map fun c => KeyEvent.key (String.singleton c)

/-! DOM parser (src/pages/content/parser.ts)

The parser reads three things from an element: its raw textContent, the text
of its data-content-editable-leaf descendants (in order), and the tag and
textContent of its strong/em/u/s/code descendants (in order). An element is
embedded as exactly those observations; JavaScript strings are List Char so
that indexOf can be defined structurally. -/

/-- The tag of a formatted descendant element matched by the
strong, em, u, s, code selector of extractFormatting. -/
inductive FormatTag where
  | strongTag
  | emTag
  | uTag
  | sTag
  | codeTag
deriving DecidableEq, Repr

/-- The tagName dispatch of extractFormatting (default bold). -/
def tagToType : FormatTag → FormatType
  | FormatTag.strongTag => FormatType.bold
  | FormatTag.emTag => FormatType.italic
  | FormatTag.uTag => FormatType.underline
  | FormatTag.sTag => FormatType.strikethrough
  | FormatTag.codeTag => FormatType.code

/-- The observations parser.ts makes of a DOM element. -/
structure DomElement where
  textContent : List Char
  leaves : List (List Char)
  formatted : List (FormatTag × List Char)
deriving DecidableEq, Repr

/-- Does pat occur at the head of s. -/
def listLeads : List Char → List Char → Bool
  | [], _ => true
  | _ :: _, [] => false
  | p :: ps, c :: cs => p == c && listLeads ps cs

/-- JavaScript String.indexOf: position of the first occurrence of pat in s,
none standing for the -1 of the source (the caller filters on start >= 0). -/
def jsIndexOf (s pat : List Char) : Option Nat :=
  match s with
  | [] => if pat = [] then some 0 else none
  | _ :: cs => if listLeads pat s then some 0 else (jsIndexOf cs pat).map (· + 1)

/-- JavaScript String.prototype.trim, embedded with Char.isWhitespace. -/
def trimChars (s : List Char) : List Char :=
  ((s.dropWhile Char.isWhitespace).reverse.dropWhile Char.isWhitespace).reverse

/-- extractTextContent from parser.ts: join the editable-leaf texts when any
exist, otherwise the trimmed raw textContent. -/
def extractTextContent (e : DomElement) : List Char :=
  if 0 < e.leaves.length then e.leaves.flatten else trimChars e.textContent

/-- extractFormatting from parser.ts: for each formatted descendant, locate
the first occurrence of its text inside the raw textContent of the element
and record a span of its length there; descendants whose text does not occur
are skipped. -/
def extractFormatting (e : DomElement) : List TextFormatting :=
  e.formatted.filterMap fun tc =>
    match jsIndexOf e.textContent tc.2 with
    | some start => some { type := tagToType tc.1, start := start, endOffset := start + tc.2.length }
    | none => none

/-! Viewer (SlideViewer.tsx) -/

/-- The condition guarding the parsing-error warning banner of SlideViewer:
deck.parsingErrors.length > 0. -/
def showsParsingWarning (deck : SlideDeck) : Bool :=
  decide (0 < deck.parsingErrors.length)

/-! Concrete blocks used by the claim instances -/

/-- A paragraph block with the given id and text. -/
def mkParagraph (id content : String) : NotionBlock :=
  { id := id, type := NotionBlockType.paragraph, content := content }

/-- A heading block with the given id, level and text. -/
def mkHeading (id : String) (level : Nat) (content : String) : NotionBlock :=
  { id := id, type := NotionBlockType.heading, content := content, level := some level }

/-- The block list of the first end-to-end scenario of the spec. -/
def scenarioOneBlocks : List NotionBlock :=
  [mkHeading "1" 2 "Slide 1", mkParagraph "2" "Content for slide 1",
   mkHeading "3" 2 "Slide 2", mkParagraph "4" "Content for slide 2"]

/-! Checkers and spec-side definitions used by the claim statements -/

/-- Spec-side definition of the eligible boundary levels, written from the
words of the spec for comparison with the detector: the headingLevel of every
Heading block with level strictly greater than 1, in document order. -/
def specEligibleLevels (blocks : List NotionBlock) : List Nat :=
  blocks.filterMap fun b =>
    match b.type, b.level with
    | NotionBlockType.heading, some l => if 1 < l then some l else none
    | _, _ => none

/-- Is b a boundary heading at level L. -/
def isBoundaryHeading (L : Nat) (b : NotionBlock) : Prop :=
  b.type = NotionBlockType.heading ∧ b.level = some L

instance (L : Nat) (b : NotionBlock) : Decidable (isBoundaryHeading L b) := by
  unfold isBoundaryHeading; infer_instance

/-- Checker: no slide of the list carries a boundary-level heading among its
blocks. -/
def noBoundaryHeadingBlocks (slides : List Slide) (L : Nat) : Bool :=
  slides.all fun s => s.blocks.all fun b => !(decide (isBoundaryHeading L b))

/-- Invariant of the generator loop state for C3: neither the flushed slides
nor the pending buffer contain a boundary-level heading. -/
def stateNoBoundary (L : Nat) (st : GenState) : Prop :=
  (∀ s ∈ st.slides, ∀ b ∈ s.blocks, ¬ isBoundaryHeading L b) ∧
  (∀ b ∈ st.currentSlideBlocks, ¬ isBoundaryHeading L b)

/-- Invariant of the generator loop state for C9: slide index i sits at
position i. -/
def indicesOK (slides : List Slide) : Prop :=
  ∀ i : Fin slides.length, (slides.get i).index = i

/-- Checker for the C8 claim as stated: every extracted span is strictly
increasing and bounded by the length of the extracted block text. -/
def spanWithinExtractedText (e : DomElement) : Bool :=
  (extractFormatting e).all fun f =>
    decide (f.start < f.endOffset) && decide (f.endOffset ≤ (extractTextContent e).length)

/-- Checker for the amended C8 claim: every extracted span is monotone and
bounded by the length of the raw textContent the offsets are computed
against. -/
def spanWithinTextContent (e : DomElement) : Bool :=
  (extractFormatting e).all fun f =>
    decide (f.start ≤ f.endOffset) && decide (f.endOffset ≤ e.textContent.length)

/-- A DOM element realizable as a paragraph div holding a strong child whose
text ends in the trailing whitespace of the element and an empty em child. -/
def counterexampleElement : DomElement :=
  { textContent := "ab ".toList
    leaves := []
    formatted := [(FormatTag.strongTag, "ab ".toList), (FormatTag.emTag, [])] }

/-! Theorems -/

/-- Claim C10: generateSlideDeck always returns an empty parsingErrors sequence, so
the parsing-error warning of the viewer can never show for a deck produced by
this assembler. -/
theorem generateSlideDeck_no_parse_errors (blocks : List NotionBlock) (url : String) :
    (generateSlideDeck blocks url).parsingErrors = [] ∧
    showsParsingWarning (generateSlideDeck blocks url) = false :=
  ⟨rfl, rfl⟩

/-- Claim C1: evaluation of generateSlides at a nonempty block list with no heading
of level strictly greater than 1. The code returns the single No Content
placeholder slide and discards both input paragraphs, instead of the one
slide holding all input blocks under the default placeholder title that the
claim (and the no-Heading unit test of the repository) states. -/
theorem generateSlides_no_boundary_returns_placeholder :
    generateSlides [mkParagraph "1" "Just a paragraph", mkParagraph "2" "Another paragraph"]
      = [createEmptySlide] ∧
    (generateSlides [mkParagraph "1" "Just a paragraph", mkParagraph "2" "Another paragraph"]).map
      (fun s => s.title) = ["No Content"] ∧
    ((generateSlides [mkParagraph "1" "Just a paragraph", mkParagraph "2" "Another paragraph"]).all
      fun s => decide (mkParagraph "1" "Just a paragraph" ∈ s.blocks)) = false := by
  decide

/-- Claim C5: calculateFontSize returns the base size 24 when either input is
non-positive, otherwise max(12, round(24 * min(1, viewport / content))), and
the result always lies between the floor 12 and the base 24. -/
theorem calculateFontSize_bounds_and_cases (c v : ℚ) :
    (12 ≤ calculateFontSize c v ∧ calculateFontSize c v ≤ 24) ∧
    (c ≤ 0 ∨ v ≤ 0 → calculateFontSize c v = 24) ∧
    (0 < c → 0 < v → calculateFontSize c v = max 12 (jsRound (24 * min 1 (v / c)))) := by
  by_cases h : c ≤ 0 ∨ v ≤ 0
  · have heq : calculateFontSize c v = 24 := by
      simp [calculateFontSize, h, BASE_FONT_SIZE]
    refine ⟨⟨by rw [heq]; norm_num, by rw [heq]⟩, fun _ => heq, fun hc hv => ?_⟩
    rcases h with h | h <;> linarith
  · push_neg at h
    obtain ⟨hc, hv⟩ := h
    have heq : calculateFontSize c v = max 12 (jsRound (24 * min 1 (v / c))) := by
      have h1 : ¬(c ≤ 0 ∨ v ≤ 0) := by push_neg; exact ⟨hc, hv⟩
      simp only [calculateFontSize, if_neg h1, MIN_FONT_SIZE, BASE_FONT_SIZE]
      norm_num
    refine ⟨⟨?_, ?_⟩, fun h0 => ?_, fun _ _ => heq⟩
    · rw [heq]; exact le_max_left _ _
    · rw [heq]
      apply max_le (by norm_num)
      have hs : min 1 (v / c) ≤ 1 := min_le_left _ _
      have hmul : (24 : ℚ) * min 1 (v / c) ≤ 24 := by nlinarith
      have : jsRound (24 * min 1 (v / c)) ≤ ⌊(24 : ℚ) + 1 / 2⌋ := by
        unfold jsRound
        exact Int.floor_le_floor (by linarith)
      calc jsRound (24 * min 1 (v / c)) ≤ ⌊(24 : ℚ) + 1 / 2⌋ := this
        _ = 24 := by norm_num [Int.floor_eq_iff]
    · rcases h0 with h0 | h0 <;> linarith

/-- C5 witness: the theorem instantiated at contentHeight 1000 and viewport
height 500, the literal scenario of the spec. -/
theorem calculateFontSize_bounds_and_cases_witness :
    (0 : ℚ) < 1000 ∧ (0 : ℚ) < 500 ∧
    calculateFontSize 1000 500 = max 12 (jsRound (24 * min 1 (500 / 1000))) :=
  ⟨by norm_num, by norm_num,
    (calculateFontSize_bounds_and_cases 1000 500).2.2 (by norm_num) (by norm_num)⟩

/-- Every single navigation operation keeps an in-range index in range. -/
theorem applyNavOp_bounds (total cur : Int) (h1 : 1 ≤ total) (hc0 : 0 ≤ cur)
    (hc1 : cur ≤ total - 1) (op : NavOp) :
    0 ≤ applyNavOp total cur op ∧ applyNavOp total cur op ≤ total - 1 := by
  cases op with
  | next => simp only [applyNavOp, goToNext]; split <;> omega
  | previous => simp only [applyNavOp, goToPrevious]; split <;> omega
  | slide index =>
    exact ⟨le_max_left _ _, max_le (by omega) (min_le_left _ _)⟩
  | first => simp only [applyNavOp, goToFirst]; omega
  | last => simp only [applyNavOp, goToLast]; omega

/-- Any sequence of navigation operations keeps an in-range index in range. -/
theorem runNavOps_bounds (total : Int) (h1 : 1 ≤ total) (ops : List NavOp) :
    ∀ cur : Int, 0 ≤ cur → cur ≤ total - 1 →
      0 ≤ runNavOps total cur ops ∧ runNavOps total cur ops ≤ total - 1 := by
  induction ops with
  | nil => exact fun cur hc0 hc1 => ⟨hc0, hc1⟩
  | cons op ops ih =>
    intro cur hc0 hc1
    have hstep := applyNavOp_bounds total cur h1 hc0 hc1 op
    exact ih (applyNavOp total cur op) hstep.1 hstep.2

/-- Claim C6: on a deck with at least one slide, every finite sequence of
navigation operations started at index 0 stays inside the valid range;
goToNext at the last index and goToPrevious at index 0 are identities;
goToSlide saturates any integer argument into the range; and goToSlide at the
current in-range index leaves the index unchanged. -/
theorem navigation_clamped_invariant (total : Int) (htotal : 1 ≤ total) :
    (∀ ops : List NavOp, 0 ≤ runNavOps total 0 ops ∧ runNavOps total 0 ops ≤ total - 1) ∧
    goToNext total (total - 1) = total - 1 ∧
    goToPrevious 0 = 0 ∧
    (∀ index : Int, 0 ≤ goToSlide total index ∧ goToSlide total index ≤ total - 1) ∧
    (∀ cur : Int, 0 ≤ cur → cur ≤ total - 1 → goToSlide total cur = cur) := by
  refine ⟨fun ops => runNavOps_bounds total htotal ops 0 le_rfl (by omega), ?_, ?_, ?_, ?_⟩
  · simp [goToNext]
  · simp [goToPrevious]
  · exact fun index => ⟨le_max_left _ _, max_le (by omega) (min_le_left _ _)⟩
  · intro cur hc0 hc1
    simp only [goToSlide]
    rw [min_eq_right hc1, max_eq_right hc0]

/-! Boundary-level detection (C4) -/

/-- Minimum folding reaches a member of the list (or the seed). -/
theorem foldl_min_mem (l : Nat) (ls : List Nat) : ls.foldl min l ∈ l :: ls := by
  induction ls generalizing l with
  | nil => simp
  | cons x xs ih =>
    have h := ih (min l x)
    rcases List.mem_cons.mp h with h | h
    · rcases min_choice l x with hm | hm
      · simp only [List.foldl_cons]
        rw [h, hm]
        exact List.mem_cons_self _ _
      · simp only [List.foldl_cons]
        rw [h, hm]
        exact List.mem_cons_of_mem _ (List.mem_cons_self _ _)
    · exact List.mem_cons_of_mem _ (List.mem_cons_of_mem _ h)

/-- Minimum folding is a lower bound of the seed and every element. -/
theorem foldl_min_le (l : Nat) (ls : List Nat) : ∀ x ∈ l :: ls, ls.foldl min l ≤ x := by
  induction ls generalizing l with
  | nil =>
    intro x hx
    simp only [List.foldl_nil]
    simp at hx
    omega
  | cons y ys ih =>
    intro x hx
    simp only [List.foldl_cons]
    have hseed := ih (min l y) (min l y) (List.mem_cons_self _ _)
    rcases List.mem_cons.mp hx with rfl | hx2
    · omega
    · rcases List.mem_cons.mp hx2 with rfl | hx3
      · omega
      · exact ih (min l y) x (List.mem_cons_of_mem _ hx3)

/-- Characterization of the detector result: it returns exactly the minimum
member of the filtered heading-level list. -/
theorem detect_eq_some_iff (blocks : List NotionBlock) (L : Nat) :
    detectSlideHeadingLevel blocks = some L ↔
      L ∈ headingLevels blocks ∧ ∀ x ∈ headingLevels blocks, L ≤ x := by
  unfold detectSlideHeadingLevel
  cases hh : headingLevels blocks with
  | nil => simp
  | cons a as =>
    constructor
    · intro h
      have hL : as.foldl min a = L := by simpa using h
      rw [← hL]
      exact ⟨foldl_min_mem a as, foldl_min_le a as⟩
    · rintro ⟨hmem, hle⟩
      have h1 : as.foldl min a ≤ L := foldl_min_le a as L hmem
      have h2 : L ≤ as.foldl min a := hle _ (foldl_min_mem a as)
      show some (as.foldl min a) = some L
      exact congrArg some (by omega)

/-- The filtered list built by the detector equals the spec-side eligible
level list. -/
theorem headingLevels_eq_spec (blocks : List NotionBlock) :
    headingLevels blocks = specEligibleLevels blocks := by
  induction blocks with
  | nil => rfl
  | cons b bs ih =>
    simp only [headingLevels, specEligibleLevels, List.filter_cons, List.filterMap_cons] at ih ⊢
    cases htb : b.type <;> rcases hlv : b.level with _ | l <;>
      simp [htb, hlv, List.filterMap_cons, ih]
    by_cases h1 : 1 < l <;> simp [h1, List.filter_cons, ih]

/-- Membership in the filtered heading-level list implies strictly greater
than 1. -/
theorem headingLevels_gt_one (blocks : List NotionBlock) (l : Nat)
    (h : l ∈ headingLevels blocks) : 1 < l := by
  have := (List.mem_filter.mp h).2
  simpa using this

/-- Claim C4: the detected slide-boundary level is the minimum headingLevel over
all Heading blocks with level strictly greater than 1 (as an Option-valued
minimum), it is none exactly when no eligible heading exists, and any
returned boundary is strictly greater than 1 (level-1 headings never become
the boundary); in particular a document whose only heading sits at level 3
resolves to boundary 3. -/
theorem detectSlideHeadingLevel_is_min (blocks : List NotionBlock) :
    detectSlideHeadingLevel blocks = (specEligibleLevels blocks).min? ∧
    (detectSlideHeadingLevel blocks = none ↔ specEligibleLevels blocks = []) ∧
    (detectSlideHeadingLevel blocks).all (fun l => decide (1 < l)) = true ∧
    detectSlideHeadingLevel [mkHeading "1" 3 "Only level three"] = some 3 := by
  refine ⟨?_, ?_, ?_, by decide⟩
  · rw [← headingLevels_eq_spec]
    cases hh : headingLevels blocks with
    | nil => rw [detectSlideHeadingLevel, hh]; rfl
    | cons a as => rw [detectSlideHeadingLevel, hh]; rfl
  · rw [← headingLevels_eq_spec]
    cases hh : headingLevels blocks with
    | nil => simp [detectSlideHeadingLevel, hh]
    | cons a as => simp [detectSlideHeadingLevel, hh]
  · cases hd : detectSlideHeadingLevel blocks with
    | none => rfl
    | some L =>
      have hmem := ((detect_eq_some_iff blocks L).mp hd).1
      have := headingLevels_gt_one blocks L hmem
      simpa using this

/-- C6 witness: the theorem instantiated on a 7-slide deck and the operation
sequence of the spec scenario (last, next, first, previous). -/
theorem navigation_clamped_invariant_witness :
    (1 : Int) ≤ 7 ∧
    0 ≤ runNavOps 7 0 [NavOp.last, NavOp.next, NavOp.first, NavOp.previous] ∧
    runNavOps 7 0 [NavOp.last, NavOp.next, NavOp.first, NavOp.previous] ≤ 7 - 1 :=
  ⟨by norm_num,
    ((navigation_clamped_invariant 7 (by norm_num)).1
      [NavOp.last, NavOp.next, NavOp.first, NavOp.previous]).1,
    ((navigation_clamped_invariant 7 (by norm_num)).1
      [NavOp.last, NavOp.next, NavOp.first, NavOp.previous]).2⟩

/-! Boundary headings are consumed, never emitted (C3) -/

/-- The blocks of a created slide are exactly the buffer it was flushed
from. -/
theorem createSlide_blocks (i : Nat) (t : String) (bs : List NotionBlock) :
    (createSlide i t bs).blocks = bs := rfl

/-- One generator step preserves the no-boundary-block invariant. -/
theorem genStep_noBoundary (L : Nat) (st : GenState) (b : NotionBlock)
    (hst : stateNoBoundary L st) : stateNoBoundary L (genStep L st b) := by
  unfold genStep
  split
  · refine ⟨?_, by simp⟩
    intro s hs b' hb'
    simp only at hs
    by_cases hseen : st.hasSeenHeading
    · rw [if_pos hseen] at hs
      rcases List.mem_append.mp hs with hs | hs
      · exact hst.1 s hs b' hb'
      · simp at hs
        subst hs
        rw [createSlide_blocks] at hb'
        exact hst.2 b' hb'
    · rw [if_neg hseen] at hs
      exact hst.1 s hs b' hb'
  · rename_i hnotb
    refine ⟨hst.1, ?_⟩
    intro b' hb'
    simp only at hb'
    rcases List.mem_append.mp hb' with hb' | hb'
    · exact hst.2 b' hb'
    · simp at hb'
      subst hb'
      exact fun hcontra => hnotb hcontra

/-- The whole generator loop preserves the no-boundary-block invariant. -/
theorem foldl_genStep_noBoundary (L : Nat) (blocks : List NotionBlock) :
    ∀ st : GenState, stateNoBoundary L st →
      stateNoBoundary L (blocks.foldl (genStep L) st) := by
  induction blocks with
  | nil => exact fun st hst => hst
  | cons b bs ih =>
    intro st hst
    exact ih (genStep L st b) (genStep_noBoundary L st b hst)

/-- The final flush preserves the no-boundary-block invariant. -/
theorem finishSlides_noBoundary (L : Nat) (st : GenState)
    (hst : stateNoBoundary L st) :
    ∀ s ∈ finishSlides st, ∀ b ∈ s.blocks, ¬ isBoundaryHeading L b := by
  unfold finishSlides
  split
  · intro s hs b hb
    rcases List.mem_append.mp hs with hs | hs
    · exact hst.1 s hs b hb
    · simp at hs
      subst hs
      rw [createSlide_blocks] at hb
      exact hst.2 b hb
  · exact hst.1

/-- The placeholder slide holds a single paragraph, never a boundary
heading. -/
theorem emptySlide_noBoundary (L : Nat) :
    ∀ s ∈ [createEmptySlide], ∀ b ∈ s.blocks, ¬ isBoundaryHeading L b := by
  intro s hs b hb
  simp at hs
  subst hs
  simp [createEmptySlide] at hb
  subst hb
  simp [isBoundaryHeading]

/-- No slide produced by generateSlides carries a boundary-level heading in
its block list. -/
theorem generateSlides_noBoundary (blocks : List NotionBlock) (L : Nat)
    (hdet : detectSlideHeadingLevel blocks = some L) :
    ∀ s ∈ generateSlides blocks, ∀ b ∈ s.blocks, ¬ isBoundaryHeading L b := by
  intro s hs
  unfold generateSlides at hs
  by_cases hlen : blocks.length = 0
  · rw [if_pos hlen] at hs
    exact emptySlide_noBoundary L s hs
  · rw [if_neg hlen, hdet] at hs
    dsimp only at hs
    split at hs
    · exact emptySlide_noBoundary L s hs
    · have hinv : stateNoBoundary L (blocks.foldl (genStep L) initGenState) :=
        foldl_genStep_noBoundary L blocks initGenState (by constructor <;> simp [initGenState])
      exact finishSlides_noBoundary L _ hinv s hs

/-- Claim C3: on the first end-to-end scenario of the spec, generateSlides returns
exactly the two expected slides; and in general, whenever a boundary level is
detected, no boundary-level heading block appears in any slide block list
(each boundary heading is consumed into the title of the slide it opens). -/
theorem generateSlides_consumes_boundary_heading :
    generateSlides scenarioOneBlocks =
      [createSlide 0 "Slide 1" [mkParagraph "2" "Content for slide 1"],
       createSlide 1 "Slide 2" [mkParagraph "4" "Content for slide 2"]] ∧
    ∀ (blocks : List NotionBlock) (L : Nat), detectSlideHeadingLevel blocks = some L →
      noBoundaryHeadingBlocks (generateSlides blocks) L = true := by
  constructor
  · decide
  · intro blocks L hdet
    have h := generateSlides_noBoundary blocks L hdet
    simp only [noBoundaryHeadingBlocks, List.all_eq_true]
    intro s hs b hb
    simpa using h s hs b hb

/-- C3 witness: the general consumption property instantiated on the
scenario blocks at the detected boundary level 2. -/
theorem generateSlides_consumes_boundary_heading_witness :
    detectSlideHeadingLevel scenarioOneBlocks = some 2 ∧
    noBoundaryHeadingBlocks (generateSlides scenarioOneBlocks) 2 = true :=
  ⟨by decide, generateSlides_consumes_boundary_heading.2 scenarioOneBlocks 2 (by decide)⟩

/-! Contiguous slide positions (C9) -/

/-- One generator step preserves the property that the flushed slide indices
are exactly 0, 1, ... in order. -/
theorem genStep_indices (L : Nat) (st : GenState) (b : NotionBlock)
    (h : st.slides.map (fun s => s.index) = List.range st.slides.length) :
    (genStep L st b).slides.map (fun s => s.index) =
      List.range (genStep L st b).slides.length := by
  unfold genStep
  split
  · by_cases hseen : st.hasSeenHeading = true
    · simp only [hseen, if_true]
      rw [List.map_append, h]
      simp [createSlide, List.range_succ]
    · simp only [if_neg hseen]
      exact h
  · exact h

/-- The generator loop preserves the ordered-indices property. -/
theorem foldl_genStep_indices (L : Nat) (blocks : List NotionBlock) :
    ∀ st : GenState,
      st.slides.map (fun s => s.index) = List.range st.slides.length →
      (blocks.foldl (genStep L) st).slides.map (fun s => s.index) =
        List.range (blocks.foldl (genStep L) st).slides.length := by
  induction blocks with
  | nil => exact fun st h => h
  | cons b bs ih => exact fun st h => ih (genStep L st b) (genStep_indices L st b h)

/-- The final flush preserves the ordered-indices property. -/
theorem finishSlides_indices (st : GenState)
    (h : st.slides.map (fun s => s.index) = List.range st.slides.length) :
    (finishSlides st).map (fun s => s.index) = List.range (finishSlides st).length := by
  unfold finishSlides
  split
  · rw [List.map_append, h]
    simp [createSlide, List.range_succ]
  · exact h

/-- The slide indices of any generator output are 0, 1, ... in order. -/
theorem generateSlides_indices (blocks : List NotionBlock) :
    (generateSlides blocks).map (fun s => s.index) =
      List.range (generateSlides blocks).length := by
  unfold generateSlides
  split
  · decide
  · split
    · decide
    · dsimp only
      split
      · decide
      · exact finishSlides_indices _ (foldl_genStep_indices _ _ initGenState (by rfl))

/-- The generator never returns an empty slide list. -/
theorem generateSlides_length_pos (blocks : List NotionBlock) :
    0 < (generateSlides blocks).length := by
  unfold generateSlides
  split
  · simp
  · split
    · simp
    · dsimp only
      split
      · simp
      · rename_i hz
        omega

/-- A list whose mapped indices equal the range has slide i at position i. -/
theorem map_index_range_get (slides : List Slide)
    (h : slides.map (fun s => s.index) = List.range slides.length)
    (i : Fin slides.length) : (slides.get i).index = i := by
  have h1 : (slides.map fun s => s.index)[i.val]? = some ((slides.get i).index) := by
    rw [List.getElem?_map, List.getElem?_eq_getElem i.isLt]
    simp
  rw [h, List.getElem?_range i.isLt] at h1
  exact (Option.some.inj h1).symm

/-- Claim C9: every deck produced by generateSlideDeck has a nonempty slide list,
its totalSlides field equals the length of that list, and slide i sits at
position i for every valid i (positions contiguous from 0). -/
theorem generateSlideDeck_positions (blocks : List NotionBlock) (url : String) :
    0 < (generateSlideDeck blocks url).slides.length ∧
    (generateSlideDeck blocks url).totalSlides = (generateSlideDeck blocks url).slides.length ∧
    indicesOK (generateSlideDeck blocks url).slides := by
  refine ⟨?_, rfl, ?_⟩
  · exact generateSlides_length_pos blocks
  · intro i
    exact map_index_range_get _ (generateSlides_indices blocks) i

/-! Leading content before the first boundary heading (C2) -/

/-- The filtered heading-level list distributes over append. -/
theorem headingLevels_append (xs ys : List NotionBlock) :
    headingLevels (xs ++ ys) = headingLevels xs ++ headingLevels ys := by
  simp [headingLevels, List.filter_append, List.filterMap_append]

/-- A boundary heading at the head contributes its level at the head of the
filtered list. -/
theorem headingLevels_cons_boundary (h : NotionBlock) (rest : List NotionBlock) (L : Nat)
    (hh : h.type = NotionBlockType.heading) (hl : h.level = some L) (h1 : 1 < L) :
    headingLevels (h :: rest) = L :: headingLevels rest := by
  simp [headingLevels, List.filter_cons, List.filterMap_cons, hh, hl, h1]

/-- If the whole document detects boundary L and h is a boundary heading at
L, then the suffix starting at h detects the same boundary L. -/
theorem detect_suffix_of_append (pre : List NotionBlock) (h : NotionBlock)
    (rest : List NotionBlock) (L : Nat)
    (hh : isBoundaryHeading L h)
    (hdet : detectSlideHeadingLevel (pre ++ h :: rest) = some L) :
    detectSlideHeadingLevel (h :: rest) = some L := by
  obtain ⟨hmem, hle⟩ := (detect_eq_some_iff _ _).mp hdet
  have h1L : 1 < L := headingLevels_gt_one _ _ hmem
  have hcons : headingLevels (h :: rest) = L :: headingLevels rest :=
    headingLevels_cons_boundary h rest L hh.1 hh.2 h1L
  apply (detect_eq_some_iff _ _).mpr
  constructor
  · rw [hcons]
    exact List.mem_cons_self _ _
  · intro x hx
    apply hle
    rw [headingLevels_append]
    exact List.mem_append_right _ hx

/-- Folding the generator over blocks that are all non-boundary only grows
the pending buffer. -/
theorem foldl_genStep_nonboundary (L : Nat) :
    ∀ pre : List NotionBlock, (∀ b ∈ pre, ¬ isBoundaryHeading L b) →
      ∀ st : GenState, pre.foldl (genStep L) st =
        { st with currentSlideBlocks := st.currentSlideBlocks ++ pre } := by
  intro pre
  induction pre with
  | nil => intro _ st; simp
  | cons b bs ih =>
    intro hpre st
    have hb : ¬ isBoundaryHeading L b := hpre b (List.mem_cons_self _ _)
    have hbs : ∀ b' ∈ bs, ¬ isBoundaryHeading L b' :=
      fun b' hb' => hpre b' (List.mem_cons_of_mem _ hb')
    have hstep : genStep L st b = { st with currentSlideBlocks := st.currentSlideBlocks ++ [b] } := by
      unfold genStep
      rw [if_neg (show ¬ (b.type = NotionBlockType.heading ∧ b.level = some L) from hb)]
    simp only [List.foldl_cons, hstep, ih hbs]
    simp

/-- C2 (amended): every block preceding the first boundary-level heading is
silently dropped: the generator output over the whole list equals the output
over the suffix that starts at the first boundary heading, so the leading
content reaches no slide and the first slide takes the heading title, not
the default placeholder. -/
theorem generateSlides_drops_leading_content (pre : List NotionBlock)
    (h : NotionBlock) (rest : List NotionBlock) (L : Nat)
    (hpre : ∀ b ∈ pre, ¬ isBoundaryHeading L b)
    (hh : isBoundaryHeading L h)
    (hdet : detectSlideHeadingLevel (pre ++ h :: rest) = some L) :
    generateSlides (pre ++ h :: rest) = generateSlides (h :: rest) := by
  have hdet2 : detectSlideHeadingLevel (h :: rest) = some L :=
    detect_suffix_of_append pre h rest L hh hdet
  have hfold : (pre ++ h :: rest).foldl (genStep L) initGenState =
      (h :: rest).foldl (genStep L) initGenState := by
    rw [List.foldl_append, foldl_genStep_nonboundary L pre hpre initGenState]
    simp only [List.foldl_cons]
    congr 1
    unfold genStep
    rw [if_pos (show h.type = NotionBlockType.heading ∧ h.level = some L from hh),
        if_pos (show h.type = NotionBlockType.heading ∧ h.level = some L from hh)]
    simp [initGenState]
  unfold generateSlides
  rw [if_neg (by simp : ¬ ((pre ++ h :: rest).length = 0)),
      if_neg (by simp : ¬ ((h :: rest).length = 0)), hdet, hdet2]
  dsimp only
  rw [hfold]

/-- C2 counterexample: a paragraph precedes the first (and only) boundary
heading; the claim says it is attached to the first slide under the default
title, but the generator output titles the only slide with the heading text
and contains the leading paragraph in no slide. -/
theorem leading_content_counterexample :
    generateSlides [mkParagraph "0" "intro", mkHeading "1" 2 "A", mkParagraph "2" "body"]
      = [createSlide 0 "A" [mkParagraph "2" "body"]] ∧
    ((generateSlides [mkParagraph "0" "intro", mkHeading "1" 2 "A", mkParagraph "2" "body"]).all
      fun s => decide (mkParagraph "0" "intro" ∈ s.blocks)) = false ∧
    (generateSlides [mkParagraph "0" "intro", mkHeading "1" 2 "A", mkParagraph "2" "body"]).map
      (fun s => s.title) = ["A"] := by
  decide

/-- C2 witness: the amended theorem instantiated on the counterexample
blocks. -/
theorem generateSlides_drops_leading_content_witness :
    generateSlides ([mkParagraph "0" "intro"] ++ mkHeading "1" 2 "A" :: [mkParagraph "2" "body"])
      = generateSlides (mkHeading "1" 2 "A" :: [mkParagraph "2" "body"]) :=
  generateSlides_drops_leading_content [mkParagraph "0" "intro"] (mkHeading "1" 2 "A")
    [mkParagraph "2" "body"] 2 (by decide) (by decide) (by decide)

/-! Inline formatting span bounds (C8) -/

/-- A pattern occurring at the head of a list is no longer than the list. -/
theorem listLeads_length (p : List Char) :
    ∀ s : List Char, listLeads p s = true → p.length ≤ s.length := by
  induction p with
  | nil => intro s _; simp
  | cons c cs ih =>
    intro s h
    cases s with
    | nil => cases h
    | cons d ds =>
      have h2 := (Bool.and_eq_true _ _).mp h
      have := ih ds h2.2
      simp only [List.length_cons]
      omega

/-- A found occurrence fits inside the searched string. -/
theorem jsIndexOf_le (pat : List Char) :
    ∀ (s : List Char) (i : Nat), jsIndexOf s pat = some i → i + pat.length ≤ s.length := by
  intro s
  induction s with
  | nil =>
    intro i h
    unfold jsIndexOf at h
    split at h
    · rename_i hp
      have : i = 0 := by injection h with h0; omega
      subst this
      simp [hp]
    · cases h
  | cons c cs ih =>
    intro i h
    unfold jsIndexOf at h
    split at h
    · rename_i hlead
      have : i = 0 := by injection h with h0; omega
      subst this
      simpa using listLeads_length pat (c :: cs) hlead
    · cases hj : jsIndexOf cs pat with
      | none => rw [hj] at h; cases h
      | some j =>
        rw [hj] at h
        have hij : j + 1 = i := by simpa using h
        have := ih j hj
        simp only [List.length_cons]
        omega

/-- C8 counterexample: on a paragraph element whose raw text carries a
trailing space and whose formatted descendants are a strong span covering
that trailing space and an empty em span, extractFormatting emits the spans
(0, 3) and (0, 0) while the extracted block text has length 2: the first
span overruns the block text and the second is empty, refuting
0 <= start < end <= len(text). -/
theorem extractFormatting_span_counterexample :
    spanWithinExtractedText counterexampleElement = false ∧
    extractFormatting counterexampleElement =
      [{ type := FormatType.bold, start := 0, endOffset := 3 },
       { type := FormatType.italic, start := 0, endOffset := 0 }] ∧
    extractTextContent counterexampleElement = "ab".toList := by
  decide

/-- C8 (amended): every span recorded by extractFormatting satisfies
0 <= start <= end <= len(textContent), where textContent is the raw element
text the offsets are computed against (it can differ from the extracted
block text when trimming or leaf joining applies, and start = end occurs
exactly for empty formatted descendants). -/
theorem extractFormatting_spans_in_textContent (e : DomElement) :
    spanWithinTextContent e = true := by
  simp only [spanWithinTextContent, List.all_eq_true]
  intro f hf
  simp only [extractFormatting, List.mem_filterMap] at hf
  obtain ⟨tc, _, hmatch⟩ := hf
  cases hj : jsIndexOf e.textContent tc.2 with
  | none => rw [hj] at hmatch; cases hmatch
  | some start =>
    rw [hj] at hmatch
    have hf' : f = { type := tagToType tc.1, start := start, endOffset := start + tc.2.length } :=
      (Option.some.inj hmatch).symm
    subst hf'
    have hb := jsIndexOf_le tc.2 e.textContent start hj
    simp
    omega

/-! Digit buffer and Enter confirmation (C7) -/

/-- A single-character string differs from any string of other length. -/
theorem singleton_ne_of_length (c : Char) (t : String) (ht : t.length ≠ 1) :
    String.singleton c ≠ t := by
  intro he
  apply ht
  rw [← he]
  rfl

/-- A digit keydown appends to the buffer and replaces the single pending
timer with a fresh 2000 ms one. -/
theorem handleKeyPress_digit (total : Int) (st : KeyboardState) (c : Char)
    (hc : c.isDigit = true) :
    handleKeyPress total st (String.singleton c) =
      { st with
          numberBuffer := st.numberBuffer ++ [c]
          numberTimeout := some DIGIT_BUFFER_TIMEOUT_MS } := by
  have hspace : String.singleton c ≠ " " := by
    intro he
    have hdata : [c] = [' '] := congrArg String.data he
    have : c = ' ' := by simpa using hdata
    rw [this] at hc
    exact absurd hc (by decide)
  have h1 : ¬(String.singleton c = "ArrowRight" ∨ String.singleton c = "ArrowDown" ∨
      String.singleton c = " ") := by
    rintro (he | he | he)
    · exact singleton_ne_of_length c _ (by decide) he
    · exact singleton_ne_of_length c _ (by decide) he
    · exact hspace he
  have h2 : ¬(String.singleton c = "ArrowLeft" ∨ String.singleton c = "ArrowUp") := by
    rintro (he | he)
    · exact singleton_ne_of_length c _ (by decide) he
    · exact singleton_ne_of_length c _ (by decide) he
  unfold handleKeyPress
  rw [if_neg h1, if_neg h2,
      if_neg (singleton_ne_of_length c "Home" (by decide)),
      if_neg (singleton_ne_of_length c "End" (by decide)),
      if_neg (singleton_ne_of_length c "Escape" (by decide)),
      if_neg (singleton_ne_of_length c "Enter" (by decide))]
  show (if c.isDigit = true then _ else st) = _
  rw [if_pos hc]

/-- Running a nonempty digit sequence appends it to the buffer and leaves
exactly one pending 2000 ms timer. -/
theorem runEvents_digits (total : Int) :
    ∀ ds : List Char, (∀ c ∈ ds, c.isDigit = true) →
      ∀ st : KeyboardState, ds ≠ [] →
        runEvents total st (digitEvents ds) =
          { st with
              numberBuffer := st.numberBuffer ++ ds
              numberTimeout := some DIGIT_BUFFER_TIMEOUT_MS } := by
  intro ds
  induction ds with
  | nil => intro _ st hne; exact absurd rfl hne
  | cons c cs ih =>
    intro hds st _
    simp only [digitEvents, List.map_cons, runEvents, List.foldl_cons]
    have hstep : stepEvent total st (KeyEvent.key (String.singleton c)) =
        { st with
            numberBuffer := st.numberBuffer ++ [c]
            numberTimeout := some DIGIT_BUFFER_TIMEOUT_MS } :=
      handleKeyPress_digit total st c (hds c (List.mem_cons_self _ _))
    rw [hstep]
    by_cases hcs : cs = []
    · subst hcs
      simp
    · have := ih (fun c' h' => hds c' (List.mem_cons_of_mem _ h'))
        { st with
            numberBuffer := st.numberBuffer ++ [c]
            numberTimeout := some DIGIT_BUFFER_TIMEOUT_MS } hcs
      simp only [digitEvents, runEvents] at this
      rw [this]
      simp

/-- Enter with a nonempty buffer jumps when the parsed 1-based number is
positive, performs no jump otherwise, and always clears buffer and timer. -/
theorem handleKeyPress_enter (total : Int) (st : KeyboardState)
    (hb : st.numberBuffer ≠ []) :
    handleKeyPress total st "Enter" =
      { st with
          currentSlide :=
            if 0 < parseIntDigits st.numberBuffer then
              goToSlide total ((parseIntDigits st.numberBuffer : Int) - 1)
            else st.currentSlide
          numberBuffer := []
          numberTimeout := none } := by
  obtain ⟨buf, tmo, cur, cl⟩ := st
  simp only at hb ⊢
  unfold handleKeyPress
  rw [if_neg (by decide), if_neg (by decide), if_neg (by decide), if_neg (by decide),
      if_neg (by decide), if_pos rfl,
      if_pos (show 0 < buf.length from List.length_pos.mpr hb)]
  dsimp only
  by_cases hp : 0 < parseIntDigits buf
  · simp [hp]
  · simp [hp]

/-- C7 counterexample: typing the digit 0 and then Enter from slide 1 of a
3-slide deck leaves the index at 1, while the claim mandates
jumpTo(0 - 1), which saturates to slide 0; so Enter does not perform
jumpTo(n - 1) for every parsed buffer value n. -/
theorem digit_zero_enter_counterexample :
    runEvents 3 ⟨[], none, 1, false⟩ [KeyEvent.key "0", KeyEvent.key "Enter"]
      = ⟨[], none, 1, false⟩ ∧
    goToSlide 3 ((parseIntDigits ['0'] : Int) - 1) = 0 ∧
    (runEvents 3 ⟨[], none, 1, false⟩ [KeyEvent.key "0", KeyEvent.key "Enter"]).currentSlide
      = 1 := by
  decide

/-- C7 (amended): starting from an empty buffer, any nonempty digit sequence
accumulates into the buffer with exactly one pending 2000 ms timer (each new
digit cancels and replaces it); a following Enter parses the buffer as a
1-based number n and performs jumpTo(n - 1) exactly when n is positive (a
buffer parsing to 0 performs no jump), clearing buffer and timer; without
confirmation the pending timer firing auto-clears the buffer and leaves no
pending timer. -/
theorem digit_buffer_enter_behavior (total : Int) (st : KeyboardState) (ds : List Char)
    (hne : ds ≠ []) (hds : ∀ c ∈ ds, c.isDigit = true) (hbuf : st.numberBuffer = []) :
    runEvents total st (digitEvents ds ++ [KeyEvent.key "Enter"]) =
      { st with
          numberBuffer := []
          numberTimeout := none
          currentSlide :=
            if 0 < parseIntDigits ds then goToSlide total ((parseIntDigits ds : Int) - 1)
            else st.currentSlide } ∧
    (runEvents total st (digitEvents ds)).numberBuffer = ds ∧
    (runEvents total st (digitEvents ds)).numberTimeout = some DIGIT_BUFFER_TIMEOUT_MS ∧
    (runEvents total st (digitEvents ds ++ [KeyEvent.timerFire])).numberBuffer = [] ∧
    (runEvents total st (digitEvents ds ++ [KeyEvent.timerFire])).numberTimeout = none := by
  obtain ⟨buf, tmo, cur, cl⟩ := st
  simp only at hbuf
  subst hbuf
  have hrun := runEvents_digits total ds hds ⟨[], tmo, cur, cl⟩ hne
  simp only [List.nil_append] at hrun
  refine ⟨?_, by rw [hrun], by rw [hrun], ?_, ?_⟩
  · have hsplit : runEvents total ⟨[], tmo, cur, cl⟩ (digitEvents ds ++ [KeyEvent.key "Enter"]) =
        handleKeyPress total (runEvents total ⟨[], tmo, cur, cl⟩ (digitEvents ds)) "Enter" := by
      simp [runEvents, List.foldl_append, stepEvent]
    rw [hsplit, hrun, handleKeyPress_enter total _ (by simpa using hne)]
  · have hsplit : runEvents total ⟨[], tmo, cur, cl⟩ (digitEvents ds ++ [KeyEvent.timerFire]) =
        fireTimer (runEvents total ⟨[], tmo, cur, cl⟩ (digitEvents ds)) := by
      simp [runEvents, List.foldl_append, stepEvent]
    rw [hsplit, hrun]
    rfl
  · have hsplit : runEvents total ⟨[], tmo, cur, cl⟩ (digitEvents ds ++ [KeyEvent.timerFire]) =
        fireTimer (runEvents total ⟨[], tmo, cur, cl⟩ (digitEvents ds)) := by
      simp [runEvents, List.foldl_append, stepEvent]
    rw [hsplit, hrun]
    rfl

/-- C7 witness: the amended theorem instantiated on the digit sequence 1, 2
typed from slide 2 of a 7-slide deck. -/
theorem digit_buffer_enter_behavior_witness :
    runEvents 7 ⟨[], none, 2, false⟩ (digitEvents ['1', '2'] ++ [KeyEvent.key "Enter"]) =
      ⟨[], none,
        if 0 < parseIntDigits ['1', '2'] then goToSlide 7 ((parseIntDigits ['1', '2'] : Int) - 1)
        else 2, false⟩ :=
  (digit_buffer_enter_behavior 7 ⟨[], none, 2, false⟩ ['1', '2']
    (by decide) (by decide) rfl).1

end Presenotion
